import Mathlib

/-!
# Verification of the cw-vault-standard message protocol

A shallow embedding of `src/msg.rs` of the margined-protocol
cw-vault-standard crate: the `Token` model with its two narrowing
conversions, the `ExecuteMsg`/`QueryMsg` families, the build-flag
conditional extension unions, and a model of the documented wire
encoding, together with theorems settling the specification's claims.
-/

namespace CwVaultStandard

/-! ## External collaborator types (cosmwasm-std)

The source depends on `cosmwasm_std`: `Uint128`, `Addr`, `StdError`,
`StdResult`, `Empty`, and the `Api` address-validation capability.
These are embedded just deeply enough for the source's uses. -/

/-- `cosmwasm_std::Uint128`: message fields carry unsigned 128-bit
integers; the source performs no arithmetic on them, so a `Nat`
carrier is faithful for the message layer. -/
abbrev Uint128 := Nat

/-- `cosmwasm_std::Addr`: a validated address, a newtype over the
underlying address string. -/
structure Addr where
  addr : String
deriving DecidableEq, Repr

/-- `cosmwasm_std::StdError`: the host error taxonomy. The variants
relevant here follow cosmwasm-std 1.x: `generic_err` constructs the
`GenericErr` variant; the taxonomy has no token-specific variant. -/
inductive StdError : Type
  | genericErr (msg : String)
  | notFound (kind : String)
  | parseErr (target msg : String)
deriving DecidableEq, Repr

/-- Whether an error is the generic, unclassified kind
(`StdError::GenericErr`). -/
def StdError.isGenericErr : StdError → Bool
  | .genericErr _ => true
  | _ => false

/-- `cosmwasm_std::StdResult<A> = Result<A, StdError>`. -/
abbrev StdResult (α : Type) := Except StdError α

/-- The address-validation capability of `cosmwasm_std::Api`: given a
free-form string it either returns a validated `Addr` or fails. The
source takes it as `&dyn Api` and calls only `addr_validate`. -/
abbrev AddrValidate := String → StdResult Addr

/-- `cosmwasm_std::Empty`: an empty struct `Empty {}`, the unit-like
placeholder type. -/
structure CwEmpty where
deriving DecidableEq, Repr

/-! ## Token model (`src/msg.rs` lines 198-223) -/

/-- `Token`: tagged union over the two asset representations,
`Native(String)` carrying a denom and `Cw20(String)` carrying a
contract address string. -/
inductive Token : Type
  | Native (denom : String)
  | Cw20 (addr : String)
deriving DecidableEq, Repr

/-- `Token::to_cw20_addr(&self, api: &dyn Api) -> StdResult<Addr>`:
on `Native(denom)` returns `Err(StdError::generic_err(format!(
"Native token {} cannot be converted to address", denom)))`; on
`Cw20(addr)` returns `api.addr_validate(addr)`. -/
def Token.to_cw20_addr (t : Token) (addrValidate : AddrValidate) : StdResult Addr :=
  match t with
  | .Native denom =>
      .error (.genericErr ("Native token " ++ denom ++ " cannot be converted to address"))
  | .Cw20 addr => addrValidate addr

/-- `Token::to_native_denom(&self) -> StdResult<String>`: on
`Native(denom)` returns `Ok(denom.clone())`; on `Cw20(_)` returns
`Err(StdError::generic_err("Cw20 token cannot be converted to native
token"))`. -/
def Token.to_native_denom : Token → StdResult String
  | .Native denom => .ok denom
  | .Cw20 _ => .error (.genericErr "Cw20 token cannot be converted to native token")

/-! ## Message protocol (`src/msg.rs` lines 12-196) -/

/-- `VaultStandardInfo` (lines 179-186): protocol version (a `u16`;
no arithmetic is performed on it at this layer) and the names of the
active extensions. -/
structure VaultStandardInfo where
  version : Nat
  extensions : List String
deriving DecidableEq, Repr

/-- `VaultInfo` (lines 188-196): the two economically relevant tokens
of a vault. -/
structure VaultInfo where
  base_token : Token
  vault_token : Token
deriving DecidableEq, Repr

/-- Modelled from the spec: the keeper extension module's own command
union (`crate::extensions::keeper::KeeperExecuteMsg`, a file of this
repository not present under `src/`); the spec treats extension
payloads as opaque serializable values, so it is carried as an opaque
string. -/
structure KeeperExecuteMsg where
  payload : String
deriving DecidableEq, Repr

/-- Modelled from the spec: the lockup extension module's own command
union (`crate::extensions::lockup::LockupExecuteMsg`, not under
`src/`); opaque serializable payload. -/
structure LockupExecuteMsg where
  payload : String
deriving DecidableEq, Repr

/-- Modelled from the spec: the keeper extension module's own query
union (`crate::extensions::keeper::KeeperQueryMsg`, not under
`src/`); opaque serializable payload. -/
structure KeeperQueryMsg where
  payload : String
deriving DecidableEq, Repr

/-- Modelled from the spec: the lockup extension module's own query
union (`crate::extensions::lockup::LockupQueryMsg`, not under
`src/`); opaque serializable payload. -/
structure LockupQueryMsg where
  payload : String
deriving DecidableEq, Repr

/-- `ExtensionExecuteMsg` (lines 48-54): the default extension
command union. In the source each member is guarded by a Cargo
feature (`#[cfg(feature = "keeper")]` / `#[cfg(feature = "lockup")]`),
so the type is indexed here by the two build flags: the `Keeper`
member exists exactly in builds with the keeper flag set, `Lockup`
exactly with the lockup flag set. -/
inductive ExtensionExecuteMsg : (keeper lockup : Bool) → Type
  | Keeper {lockup : Bool} (m : KeeperExecuteMsg) : ExtensionExecuteMsg true lockup
  | Lockup {keeper : Bool} (m : LockupExecuteMsg) : ExtensionExecuteMsg keeper true

/-- `ExtensionQueryMsg` (lines 165-171): the default extension query
union, feature-guarded exactly like `ExtensionExecuteMsg`. -/
inductive ExtensionQueryMsg : (keeper lockup : Bool) → Type
  | Keeper {lockup : Bool} (m : KeeperQueryMsg) : ExtensionQueryMsg true lockup
  | Lockup {keeper : Bool} (m : LockupQueryMsg) : ExtensionQueryMsg keeper true

/-- View a default extension command as the module payload it wraps. -/
def ExtensionExecuteMsg.toSum {k l : Bool} :
    ExtensionExecuteMsg k l → KeeperExecuteMsg ⊕ LockupExecuteMsg
  | .Keeper m => Sum.inl m
  | .Lockup m => Sum.inr m

/-- View a default extension query as the module payload it wraps. -/
def ExtensionQueryMsg.toSum {k l : Bool} :
    ExtensionQueryMsg k l → KeeperQueryMsg ⊕ LockupQueryMsg
  | .Keeper m => Sum.inl m
  | .Lockup m => Sum.inr m

/-- `ExecuteMsg<T = ExtensionExecuteMsg>` (lines 12-43): the command
family — `Deposit { amount, recipient }`, `Redeem { recipient,
amount }`, and `VaultExtension(T)`. -/
inductive ExecuteMsg (T : Type) : Type
  | Deposit (amount : Uint128) (recipient : Option String)
  | Redeem (recipient : Option String) (amount : Uint128)
  | VaultExtension (ext : T)

/-- `QueryMsg<T = ExtensionQueryMsg>` (lines 56-160): the query
family. -/
inductive QueryMsg (T : Type) : Type
  | VaultStandardInfo
  | Info
  | PreviewDeposit (amount : Uint128)
  | PreviewRedeem (amount : Uint128)
  | MaxDeposit (recipient : String)
  | MaxRedeem (owner : String)
  | TotalAssets
  | TotalVaultTokenSupply
  | ConvertToShares (amount : Uint128)
  | ConvertToAssets (amount : Uint128)
  | VaultExtension (ext : T)

/-- Whether a command is the extension-forwarding variant. -/
def ExecuteMsg.isVaultExtension {T : Type} : ExecuteMsg T → Bool
  | .VaultExtension _ => true
  | _ => false

/-- Whether a query is the extension-forwarding variant. -/
def QueryMsg.isVaultExtension {T : Type} : QueryMsg T → Bool
  | .VaultExtension _ => true
  | _ => false

/-- The response types the source declares per query variant through
the `#[returns(...)]` attributes (lines 64, 69, 89, 94, 108, 118,
126, 130, 141, 153, 158). -/
inductive RespType : Type
  | vaultStandardInfo
  | vaultInfo
  | uint128
  | optionUint128
  | empty
deriving DecidableEq, Repr

/-- The declared (`#[returns]`) response type of each query variant:
`VaultStandardInfo` for `VaultStandardInfo {}`, `VaultInfo` for
`Info {}`, `Uint128` for the numeric queries, `Option<Uint128>` for
the `Max*` queries, and `cosmwasm_std::Empty` for
`VaultExtension(T)`. -/
def QueryMsg.declaredResponse {T : Type} : QueryMsg T → RespType
  | .VaultStandardInfo => .vaultStandardInfo
  | .Info => .vaultInfo
  | .PreviewDeposit _ => .uint128
  | .PreviewRedeem _ => .uint128
  | .MaxDeposit _ => .optionUint128
  | .MaxRedeem _ => .optionUint128
  | .TotalAssets => .uint128
  | .TotalVaultTokenSupply => .uint128
  | .ConvertToShares _ => .uint128
  | .ConvertToAssets _ => .uint128
  | .VaultExtension _ => .empty

/-! ## Wire encoding model

Modelled from the spec, §6: `#[cw_serde]` derives a serde JSON
encoding whose derive expansion is not under `src/`; per the spec
each variant serializes as a tagged record with the snake_case
variant name as the discriminant key and the field object as the
payload. `Uint128` values are carried by a dedicated numeric node
(standing for cosmwasm's decimal-string encoding of `Uint128`),
`Option` fields by `null`/payload as serde does. The decoders accept
exactly the canonical encodings. -/

/-- A structured-data (JSON) value, as deep as the message shapes
need: null, strings, numbers and key-ordered objects. -/
inductive JValue : Type
  | null
  | str (s : String)
  | num (n : Nat)
  | obj (fields : List (String × JValue))

/-- Encoding of an `Option<String>` field: serde emits `null` for
`None` and the bare string for `Some`. -/
def encodeOptString : Option String → JValue
  | none => .null
  | some s => .str s

/-- Decoder matching `encodeOptString`. -/
def decodeOptString : JValue → Option (Option String)
  | .null => some none
  | .str s => some (some s)
  | _ => none

/-- Modelled from the spec: canonical encoding of the opaque keeper
command payload. -/
def encodeKeeperExecuteMsg (m : KeeperExecuteMsg) : JValue := .str m.payload

/-- Decoder matching `encodeKeeperExecuteMsg`. -/
def decodeKeeperExecuteMsg : JValue → Option KeeperExecuteMsg
  | .str s => some ⟨s⟩
  | _ => none

/-- Modelled from the spec: canonical encoding of the opaque lockup
command payload. -/
def encodeLockupExecuteMsg (m : LockupExecuteMsg) : JValue := .str m.payload

/-- Decoder matching `encodeLockupExecuteMsg`. -/
def decodeLockupExecuteMsg : JValue → Option LockupExecuteMsg
  | .str s => some ⟨s⟩
  | _ => none

/-- Modelled from the spec: canonical encoding of the opaque keeper
query payload. -/
def encodeKeeperQueryMsg (m : KeeperQueryMsg) : JValue := .str m.payload

/-- Decoder matching `encodeKeeperQueryMsg`. -/
def decodeKeeperQueryMsg : JValue → Option KeeperQueryMsg
  | .str s => some ⟨s⟩
  | _ => none

/-- Modelled from the spec: canonical encoding of the opaque lockup
query payload. -/
def encodeLockupQueryMsg (m : LockupQueryMsg) : JValue := .str m.payload

/-- Decoder matching `encodeLockupQueryMsg`. -/
def decodeLockupQueryMsg : JValue → Option LockupQueryMsg
  | .str s => some ⟨s⟩
  | _ => none

/-- Encoding of the default extension command union: externally
tagged with the snake_case member name. -/
def encodeExtensionExecuteMsg (k l : Bool) : ExtensionExecuteMsg k l → JValue
  | .Keeper m => .obj [("keeper", encodeKeeperExecuteMsg m)]
  | .Lockup m => .obj [("lockup", encodeLockupExecuteMsg m)]

/-- Decoder for the default extension command union: a member
deserializes only in a build whose flag includes it. -/
def decodeExtensionExecuteMsg (k l : Bool) (j : JValue) :
    Option (ExtensionExecuteMsg k l) :=
  match k, l, j with
  | true, _, .obj [("keeper", p)] => (decodeKeeperExecuteMsg p).map .Keeper
  | _, true, .obj [("lockup", p)] => (decodeLockupExecuteMsg p).map .Lockup
  | _, _, _ => none

/-- Encoding of the default extension query union. -/
def encodeExtensionQueryMsg (k l : Bool) : ExtensionQueryMsg k l → JValue
  | .Keeper m => .obj [("keeper", encodeKeeperQueryMsg m)]
  | .Lockup m => .obj [("lockup", encodeLockupQueryMsg m)]

/-- Decoder for the default extension query union. -/
def decodeExtensionQueryMsg (k l : Bool) (j : JValue) :
    Option (ExtensionQueryMsg k l) :=
  match k, l, j with
  | true, _, .obj [("keeper", p)] => (decodeKeeperQueryMsg p).map .Keeper
  | _, true, .obj [("lockup", p)] => (decodeLockupQueryMsg p).map .Lockup
  | _, _, _ => none

/-- Encoding of `ExecuteMsg<T>`: one tagged record per variant, keys
in declaration order, generic payload encoded by `encT`. -/
def encodeExecuteMsg {T : Type} (encT : T → JValue) : ExecuteMsg T → JValue
  | .Deposit amount recipient =>
      .obj [("deposit", .obj [("amount", .num amount), ("recipient", encodeOptString recipient)])]
  | .Redeem recipient amount =>
      .obj [("redeem", .obj [("recipient", encodeOptString recipient), ("amount", .num amount)])]
  | .VaultExtension t => .obj [("vault_extension", encT t)]

/-- Decoder matching `encodeExecuteMsg`, dispatching on the
discriminant key. -/
def decodeExecuteMsg {T : Type} (decT : JValue → Option T) (j : JValue) :
    Option (ExecuteMsg T) :=
  match j with
  | .obj [(key, payload)] =>
      if key = "deposit" then
        match payload with
        | .obj [("amount", .num a), ("recipient", ro)] =>
            (decodeOptString ro).map (fun r => .Deposit a r)
        | _ => none
      else if key = "redeem" then
        match payload with
        | .obj [("recipient", ro), ("amount", .num a)] =>
            (decodeOptString ro).map (fun r => .Redeem r a)
        | _ => none
      else if key = "vault_extension" then
        (decT payload).map .VaultExtension
      else none
  | _ => none

/-- Encoding of `QueryMsg<T>`: one tagged record per variant. -/
def encodeQueryMsg {T : Type} (encT : T → JValue) : QueryMsg T → JValue
  | .VaultStandardInfo => .obj [("vault_standard_info", .obj [])]
  | .Info => .obj [("info", .obj [])]
  | .PreviewDeposit a => .obj [("preview_deposit", .obj [("amount", .num a)])]
  | .PreviewRedeem a => .obj [("preview_redeem", .obj [("amount", .num a)])]
  | .MaxDeposit r => .obj [("max_deposit", .obj [("recipient", .str r)])]
  | .MaxRedeem o => .obj [("max_redeem", .obj [("owner", .str o)])]
  | .TotalAssets => .obj [("total_assets", .obj [])]
  | .TotalVaultTokenSupply => .obj [("total_vault_token_supply", .obj [])]
  | .ConvertToShares a => .obj [("convert_to_shares", .obj [("amount", .num a)])]
  | .ConvertToAssets a => .obj [("convert_to_assets", .obj [("amount", .num a)])]
  | .VaultExtension t => .obj [("vault_extension", encT t)]

/-- Decoder matching `encodeQueryMsg`. -/
def decodeQueryMsg {T : Type} (decT : JValue → Option T) (j : JValue) :
    Option (QueryMsg T) :=
  match j with
  | .obj [(key, payload)] =>
      if key = "vault_standard_info" then
        match payload with
        | .obj [] => some .VaultStandardInfo
        | _ => none
      else if key = "info" then
        match payload with
        | .obj [] => some .Info
        | _ => none
      else if key = "preview_deposit" then
        match payload with
        | .obj [("amount", .num a)] => some (.PreviewDeposit a)
        | _ => none
      else if key = "preview_redeem" then
        match payload with
        | .obj [("amount", .num a)] => some (.PreviewRedeem a)
        | _ => none
      else if key = "max_deposit" then
        match payload with
        | .obj [("recipient", .str r)] => some (.MaxDeposit r)
        | _ => none
      else if key = "max_redeem" then
        match payload with
        | .obj [("owner", .str o)] => some (.MaxRedeem o)
        | _ => none
      else if key = "total_assets" then
        match payload with
        | .obj [] => some .TotalAssets
        | _ => none
      else if key = "total_vault_token_supply" then
        match payload with
        | .obj [] => some .TotalVaultTokenSupply
        | _ => none
      else if key = "convert_to_shares" then
        match payload with
        | .obj [("amount", .num a)] => some (.ConvertToShares a)
        | _ => none
      else if key = "convert_to_assets" then
        match payload with
        | .obj [("amount", .num a)] => some (.ConvertToAssets a)
        | _ => none
      else if key = "vault_extension" then
        (decT payload).map .VaultExtension
      else none
  | _ => none

/-- Encoding of `Token` (lines 198-202): externally tagged with the
snake_case variant name, so `Native` under key `"native"` and `Cw20`
under key `"cw20"`. -/
def encodeToken : Token → JValue
  | .Native d => .obj [("native", .str d)]
  | .Cw20 a => .obj [("cw20", .str a)]

/-- Decoder matching `encodeToken`: only the keys `"native"` and
`"cw20"` are accepted. -/
def decodeToken (j : JValue) : Option Token :=
  match j with
  | .obj [(key, payload)] =>
      if key = "native" then
        match payload with
        | .str d => some (.Native d)
        | _ => none
      else if key = "cw20" then
        match payload with
        | .str a => some (.Cw20 a)
        | _ => none
      else none
  | _ => none

/-! ## Vault accounting model for the PreviewDeposit contract

Modelled from the spec: the vault accounting engine that computes
balances and exchange rates is an external collaborator (spec §1,
"out of scope"), not code under `src/`; the source only declares the
`PreviewDeposit` contract in the doc comment of
`QueryMsg::PreviewDeposit` (lines 72-90). The model below is a vault
satisfying that documented contract: proportional share pricing
rounded down, a deposit fee, and a deposit cap that gates `Deposit`
but is invisible to `PreviewDeposit`. -/

/-- Modelled from the spec: the state a compliant vault's accounting
engine carries — assets under management, circulating vault-token
supply, an optional global deposit cap, and a deposit fee in basis
points. -/
structure VaultState where
  totalAssets : Nat
  totalSupply : Nat
  depositCap : Option Nat
  feeBps : Nat
deriving DecidableEq, Repr

/-- Replace the deposit cap, leaving the rest of the state unchanged
(used to state that previews are cap-independent). -/
def VaultState.setDepositCap (s : VaultState) (c : Option Nat) : VaultState :=
  ⟨s.totalAssets, s.totalSupply, c, s.feeBps⟩

/-- Modelled from the spec: the deposit fee charged on `amount`,
rounded down. -/
def VaultState.depositFee (s : VaultState) (amount : Nat) : Nat :=
  amount * s.feeBps / 10000

/-- Modelled from the spec: shares minted for `assets` at the current
exchange rate, rounded down; 1:1 on an empty vault. -/
def VaultState.sharesForAssets (s : VaultState) (assets : Nat) : Nat :=
  if s.totalSupply = 0 then assets else assets * s.totalSupply / s.totalAssets

/-- Modelled from the spec: `QueryMsg::PreviewDeposit { amount }` —
the shares a deposit of `amount` would mint now: fee-inclusive,
ignoring the deposit cap and assuming the deposit is accepted. -/
def VaultState.previewDeposit (s : VaultState) (amount : Nat) : Nat :=
  s.sharesForAssets (amount - s.depositFee amount)

/-- Modelled from the spec: `ExecuteMsg::Deposit { amount }` against
a compliant vault — rejected when `amount` exceeds the configured
deposit cap, otherwise mints the fee-inclusive proportional shares
and credits the net assets. Returns the minted shares and the next
state. -/
def VaultState.deposit (s : VaultState) (amount : Nat) : Option (Nat × VaultState) :=
  let net := amount - s.depositFee amount
  let minted := s.sharesForAssets net
  match s.depositCap with
  | some cap => if cap < amount then none
      else some (minted, ⟨s.totalAssets + net, s.totalSupply + minted, s.depositCap, s.feeBps⟩)
  | none => some (minted, ⟨s.totalAssets + net, s.totalSupply + minted, s.depositCap, s.feeBps⟩)

/-- A concrete vault state used by witnesses: 10000 assets backing
1000 shares, a 5000 cap, a 5% deposit fee. -/
def exampleVault : VaultState := ⟨10000, 1000, some 5000, 500⟩

/-- The state `exampleVault` reaches after a deposit of 1000 (fee 50,
net 950, minted 95). -/
def exampleVaultAfter : VaultState := ⟨10950, 1095, some 5000, 500⟩

/-! ## Helper lemmas -/

/-- Decoding an encoded optional string recovers it. -/
theorem decodeOptString_encodeOptString (o : Option String) :
    decodeOptString (encodeOptString o) = some o := by
  cases o <;> rfl

/-- Round trip for the default extension command union, at every
flag assignment. -/
theorem decodeExtensionExecuteMsg_encode (k l : Bool) (m : ExtensionExecuteMsg k l) :
    decodeExtensionExecuteMsg k l (encodeExtensionExecuteMsg k l m) = some m := by
  cases m with
  | Keeper m => cases l <;> rfl
  | Lockup m => cases k <;> rfl

/-- Round trip for the default extension query union, at every flag
assignment. -/
theorem decodeExtensionQueryMsg_encode (k l : Bool) (m : ExtensionQueryMsg k l) :
    decodeExtensionQueryMsg k l (encodeExtensionQueryMsg k l m) = some m := by
  cases m with
  | Keeper m => cases l <;> rfl
  | Lockup m => cases k <;> rfl

/-- The default extension command union is uninhabited when both
feature flags are off. -/
theorem extensionExecuteMsg_ff_elim (m : ExtensionExecuteMsg false false) : False :=
  nomatch m

/-- The default extension query union is uninhabited when both
feature flags are off. -/
theorem extensionQueryMsg_ff_elim (q : ExtensionQueryMsg false false) : False :=
  nomatch q

/-! ## Claims C2-C5: the Token conversions -/

/-- C2: for every `Token`, `to_native_denom` on the `Native` variant
with denom `d` succeeds with exactly `d` unchanged, and on the
synthetic (`Cw20`) variant fails with an error. -/
theorem to_native_denom_spec :
    (∀ d : String, Token.to_native_denom (Token.Native d) = Except.ok d) ∧
    (∀ a : String, Token.to_native_denom (Token.Cw20 a) =
      Except.error (StdError.genericErr "Cw20 token cannot be converted to native token")) :=
  ⟨fun _ => rfl, fun _ => rfl⟩

/-- C3: for every `Native` token with denom `d` and every validator,
`to_cw20_addr` fails with an error whose detail carries the offending
denom `d`; the conversion reaches the validator (and hence can
succeed) only on the `Cw20` variant, where it is exactly the
validator's result. -/
theorem to_cw20_addr_native_fails :
    (∀ (d : String) (v : AddrValidate), Token.to_cw20_addr (Token.Native d) v =
      Except.error (StdError.genericErr
        ("Native token " ++ d ++ " cannot be converted to address"))) ∧
    (∀ (a : String) (v : AddrValidate), Token.to_cw20_addr (Token.Cw20 a) v = v a) :=
  ⟨fun _ _ => rfl, fun _ _ => rfl⟩

/-- C4 counterexample: at the concrete input `Token.Cw20 "addr"` the
wrong-variant conversion `to_native_denom` returns the generic,
unclassified error kind (`StdError::GenericErr`), not a distinct
`InvalidTokenKind` error kind — cosmwasm-std's `StdError` taxonomy,
which the source uses via `StdError::generic_err`, has no such
variant, so the failure is identifiable only by its message text. -/
theorem to_native_denom_generic_counterexample :
    Token.to_native_denom (Token.Cw20 "addr") =
      Except.error (StdError.genericErr "Cw20 token cannot be converted to native token") ∧
    StdError.isGenericErr
      (StdError.genericErr "Cw20 token cannot be converted to native token") = true ∧
    Token.to_cw20_addr (Token.Native "uosmo") (fun s => Except.ok ⟨s⟩) =
      Except.error (StdError.genericErr
        "Native token uosmo cannot be converted to address") :=
  ⟨rfl, rfl, rfl⟩

/-- C4 (amended): every wrong-variant Token conversion fails with the
generic error kind `StdError::GenericErr`, carrying a message that
describes the invalid conversion (and, for `to_cw20_addr`, names the
offending denom); there is no distinct `InvalidTokenKind` error kind,
so callers distinguish the failure only by the message text. -/
theorem wrong_variant_conversions_fail_generic :
    (∀ (d : String) (v : AddrValidate),
      Token.to_cw20_addr (Token.Native d) v =
        Except.error (StdError.genericErr
          ("Native token " ++ d ++ " cannot be converted to address")) ∧
      StdError.isGenericErr (StdError.genericErr
        ("Native token " ++ d ++ " cannot be converted to address")) = true) ∧
    (∀ a : String,
      Token.to_native_denom (Token.Cw20 a) =
        Except.error (StdError.genericErr "Cw20 token cannot be converted to native token") ∧
      StdError.isGenericErr
        (StdError.genericErr "Cw20 token cannot be converted to native token") = true) :=
  ⟨fun _ _ => ⟨rfl, rfl⟩, fun _ => ⟨rfl, rfl⟩⟩

/-- C5: for every synthetic (`Cw20`) token with stored address string
`a` and every address-validation capability `v`, `to_cw20_addr`
returns exactly `v a`: the validated handle when the validator
succeeds, and the validator's failure propagated unchanged when it
rejects `a`. -/
theorem to_cw20_addr_cw20_propagates :
    ∀ (a : String) (v : AddrValidate), Token.to_cw20_addr (Token.Cw20 a) v = v a :=
  fun _ _ => rfl

/-! ## Claim C1: the PreviewDeposit contract -/

/-- An accepted deposit mints exactly the shares `previewDeposit`
computes for the same state and amount. -/
theorem deposit_minted_eq (s : VaultState) (amount minted : Nat) (s' : VaultState)
    (h : s.deposit amount = some (minted, s')) :
    minted = s.previewDeposit amount := by
  unfold VaultState.deposit at h
  cases hc : s.depositCap with
  | some cap =>
      rw [hc] at h
      by_cases hlt : cap < amount
      · simp [hlt] at h
      · simp [hlt] at h
        exact h.1.symm
  | none =>
      rw [hc] at h
      simp at h
      exact h.1.symm

/-- C1: for every vault state and every amount > 0, the
`PreviewDeposit { amount }` result is at most the shares actually
minted by a `Deposit { amount }` accepted immediately after in the
same state; `PreviewDeposit` is independent of the deposit cap
(ignores deposit limits), and it is fee-inclusive: it prices the
amount net of the deposit fee. -/
theorem previewDeposit_le_minted (s : VaultState) (amount : Nat) (_hpos : 0 < amount) :
    (∀ (minted : Nat) (s' : VaultState), s.deposit amount = some (minted, s') →
      s.previewDeposit amount ≤ minted) ∧
    (∀ c : Option Nat,
      (s.setDepositCap c).previewDeposit amount = s.previewDeposit amount) ∧
    s.previewDeposit amount = s.sharesForAssets (amount - s.depositFee amount) := by
  refine ⟨fun minted s' h => ?_, fun c => rfl, rfl⟩
  exact le_of_eq (deposit_minted_eq s amount minted s' h).symm

/-- C1 witness: on `exampleVault` a deposit of 1000 is accepted,
mints 95 shares, and `previewDeposit` returns at most that. -/
theorem previewDeposit_le_minted_witness :
    0 < 1000 ∧ exampleVault.previewDeposit 1000 ≤ 95 :=
  ⟨by decide,
   (previewDeposit_le_minted exampleVault 1000 (by decide)).1 95 exampleVaultAfter (by decide)⟩

/-! ## Claim C6: serialization round trip -/

/-- C6: for every `ExecuteMsg` and `QueryMsg` value — every variant,
including `VaultExtension` wrapping any extension payload type whose
own encoding round-trips — serializing and then deserializing
reproduces the original value. -/
theorem execute_query_roundtrip {Te Tq : Type}
    (encE : Te → JValue) (decE : JValue → Option Te)
    (encQ : Tq → JValue) (decQ : JValue → Option Tq)
    (hE : ∀ t, decE (encE t) = some t) (hQ : ∀ t, decQ (encQ t) = some t) :
    (∀ m : ExecuteMsg Te, decodeExecuteMsg decE (encodeExecuteMsg encE m) = some m) ∧
    (∀ q : QueryMsg Tq, decodeQueryMsg decQ (encodeQueryMsg encQ q) = some q) := by
  constructor
  · intro m
    cases m with
    | Deposit a r => cases r <;> rfl
    | Redeem r a => cases r <;> rfl
    | VaultExtension t =>
        show (decE (encE t)).map ExecuteMsg.VaultExtension =
          some (ExecuteMsg.VaultExtension t)
        rw [hE t]
        rfl
  · intro q
    cases q
    case VaultExtension t =>
      show (decQ (encQ t)).map QueryMsg.VaultExtension =
        some (QueryMsg.VaultExtension t)
      rw [hQ t]
      rfl
    all_goals rfl

/-- C6 witness: concrete round trips through the default extension
unions with both capabilities enabled. -/
theorem execute_query_roundtrip_witness :
    decodeExecuteMsg (decodeExtensionExecuteMsg true true)
        (encodeExecuteMsg (encodeExtensionExecuteMsg true true)
          (ExecuteMsg.VaultExtension (ExtensionExecuteMsg.Keeper ⟨"work"⟩))) =
      some (ExecuteMsg.VaultExtension (ExtensionExecuteMsg.Keeper ⟨"work"⟩)) ∧
    decodeQueryMsg (decodeExtensionQueryMsg true true)
        (encodeQueryMsg (encodeExtensionQueryMsg true true)
          (QueryMsg.VaultExtension (ExtensionQueryMsg.Lockup ⟨"pending"⟩))) =
      some (QueryMsg.VaultExtension (ExtensionQueryMsg.Lockup ⟨"pending"⟩)) :=
  ⟨(execute_query_roundtrip (encodeExtensionExecuteMsg true true)
      (decodeExtensionExecuteMsg true true) (encodeExtensionQueryMsg true true)
      (decodeExtensionQueryMsg true true) (decodeExtensionExecuteMsg_encode true true)
      (decodeExtensionQueryMsg_encode true true)).1
    (ExecuteMsg.VaultExtension (ExtensionExecuteMsg.Keeper ⟨"work"⟩)),
   (execute_query_roundtrip (encodeExtensionExecuteMsg true true)
      (decodeExtensionExecuteMsg true true) (encodeExtensionQueryMsg true true)
      (decodeExtensionQueryMsg true true) (decodeExtensionExecuteMsg_encode true true)
      (decodeExtensionQueryMsg_encode true true)).2
    (QueryMsg.VaultExtension (ExtensionQueryMsg.Lockup ⟨"pending"⟩))⟩

/-! ## Claim C7: shape of the default extension unions -/

/-- C7: the default extension payload unions are closed — at a build
with both capabilities every member is either the keeper member or
the lockup member, each wrapping exactly that module's own
command/query union — and membership is conditional on the build
flags: a keeper member exists only in keeper-enabled builds and a
lockup member only in lockup-enabled builds. -/
theorem extension_unions_closed :
    (∀ m : ExtensionExecuteMsg true true,
      (∃ km, m = ExtensionExecuteMsg.Keeper km) ∨
      (∃ lm, m = ExtensionExecuteMsg.Lockup lm)) ∧
    (∀ (k l : Bool) (m : ExtensionExecuteMsg k l),
      (∃ km, m.toSum = Sum.inl km ∧ k = true) ∨
      (∃ lm, m.toSum = Sum.inr lm ∧ l = true)) ∧
    (∀ km, (ExtensionExecuteMsg.Keeper km : ExtensionExecuteMsg true true).toSum =
      Sum.inl km) ∧
    (∀ lm, (ExtensionExecuteMsg.Lockup lm : ExtensionExecuteMsg true true).toSum =
      Sum.inr lm) ∧
    (∀ q : ExtensionQueryMsg true true,
      (∃ kq, q = ExtensionQueryMsg.Keeper kq) ∨
      (∃ lq, q = ExtensionQueryMsg.Lockup lq)) ∧
    (∀ (k l : Bool) (q : ExtensionQueryMsg k l),
      (∃ kq, q.toSum = Sum.inl kq ∧ k = true) ∨
      (∃ lq, q.toSum = Sum.inr lq ∧ l = true)) := by
  refine ⟨fun m => ?_, fun k l m => ?_, fun km => rfl, fun lm => rfl,
    fun q => ?_, fun k l q => ?_⟩
  · cases m with
    | Keeper km => exact Or.inl ⟨km, rfl⟩
    | Lockup lm => exact Or.inr ⟨lm, rfl⟩
  · cases m with
    | Keeper km => exact Or.inl ⟨km, rfl, rfl⟩
    | Lockup lm => exact Or.inr ⟨lm, rfl, rfl⟩
  · cases q with
    | Keeper kq => exact Or.inl ⟨kq, rfl⟩
    | Lockup lq => exact Or.inr ⟨lq, rfl⟩
  · cases q with
    | Keeper kq => exact Or.inl ⟨kq, rfl, rfl⟩
    | Lockup lq => exact Or.inr ⟨lq, rfl, rfl⟩

/-! ## Claim C8: the extension query's declared response type -/

/-- C8: for every extension payload type `T`, the response type the
base protocol declares for `QueryMsg::VaultExtension` is
`cosmwasm_std::Empty` — a unit marker with exactly one, fieldless
value, a documented placeholder rather than the actual extension
response shape. -/
theorem vault_extension_response_placeholder :
    (∀ (T : Type) (t : T),
      QueryMsg.declaredResponse (QueryMsg.VaultExtension t) = RespType.empty) ∧
    (∀ a b : CwEmpty, a = b) := by
  refine ⟨fun _ _ => rfl, fun a b => ?_⟩
  cases a
  cases b
  rfl

/-! ## Claim C9: the synthetic variant is named Cw20 -/

/-- C9: the `Token` union's synthetic variant is `Cw20`: its wire
form is the tagged record with discriminant key `"cw20"` (which
round-trips), and a record tagged `"synthetic"` does not deserialize
into a `Token`. -/
theorem token_synthetic_variant_is_cw20 :
    (∀ a : String, encodeToken (Token.Cw20 a) = JValue.obj [("cw20", JValue.str a)]) ∧
    (∀ v : JValue, decodeToken (JValue.obj [("synthetic", v)]) = none) ∧
    (∀ a : String, decodeToken (encodeToken (Token.Cw20 a)) = some (Token.Cw20 a)) :=
  ⟨fun _ => rfl, fun _ => rfl, fun _ => rfl⟩

/-! ## Claim C10: no extension members without enabled flags -/

/-- C10: when no capability flag is enabled the default extension
unions have no members at all — no value of either union exists, no
wire payload deserializes into them, and consequently every
constructible or decodable `ExecuteMsg`/`QueryMsg` over the default
payload type is a non-extension variant. -/
theorem extension_unions_uninhabited_when_disabled :
    (∀ _m : ExtensionExecuteMsg false false, False) ∧
    (∀ _q : ExtensionQueryMsg false false, False) ∧
    (∀ j : JValue, decodeExtensionExecuteMsg false false j = none) ∧
    (∀ j : JValue, decodeExtensionQueryMsg false false j = none) ∧
    (∀ m : ExecuteMsg (ExtensionExecuteMsg false false), m.isVaultExtension = false) ∧
    (∀ q : QueryMsg (ExtensionQueryMsg false false), q.isVaultExtension = false) := by
  refine ⟨extensionExecuteMsg_ff_elim, extensionQueryMsg_ff_elim,
    fun j => ?_, fun j => ?_, fun m => ?_, fun q => ?_⟩
  · cases h : decodeExtensionExecuteMsg false false j with
    | none => rfl
    | some m => exact (extensionExecuteMsg_ff_elim m).elim
  · cases h : decodeExtensionQueryMsg false false j with
    | none => rfl
    | some q => exact (extensionQueryMsg_ff_elim q).elim
  · cases m with
    | Deposit a r => rfl
    | Redeem r a => rfl
    | VaultExtension t => exact (extensionExecuteMsg_ff_elim t).elim
  · cases q
    case VaultExtension t => exact (extensionQueryMsg_ff_elim t).elim
    all_goals rfl

end CwVaultStandard
